import Mathlib

/-!
Shallow embedding of the path/session state machine of
`src/RestreamServerLib/Server.cpp` (struct `Server::Private`).

The store consists of two maps (`clients`, `paths`); identifiers are
modelled as `Nat` (client pointers) and `String` (paths, session ids).
`std::set` fields are modelled as duplicate-free lists; the C++ uses the
empty string as the "unset" sentinel for `recordSessionId` and a null
pointer (here `Option.none`) for `recordClient`, exactly as the source
does.  Each event handler returns the new store together with the list of
notifications it emitted, in emission order.
-/

namespace RestreamServer

/-- Client identifier: stands for the `const GstRTSPClient*` pointer value. -/
abbrev ClientId := Nat

/-- Path identifier: the absolute path string of the RTSP URL. -/
abbrev PathId := String

/-- RTSP session identifier string. -/
abbrev SessionId := String

/-- The four notification callbacks of `Server::Callbacks`, as emitted values. -/
inductive Notification where
  | firstPlayerConnected (user : String) (path : PathId)
  | lastPlayerDisconnected (path : PathId)
  | recorderConnected (user : String) (path : PathId)
  | recorderDisconnected (path : PathId)
deriving DecidableEq, Repr

/-- The RTSP status codes returned by the pre-request hooks
(`GST_RTSP_STS_OK`, `GST_RTSP_STS_FORBIDDEN`, `GST_RTSP_STS_SERVICE_UNAVAILABLE`). -/
inductive StatusCode where
  | ok
  | forbidden
  | serviceUnavailable
deriving DecidableEq, Repr

/-- `struct ClientInfo { std::set<std::string> refPaths; }`. -/
structure ClientInfo where
  refPaths : List PathId
deriving DecidableEq, Repr

/-- `struct PathInfo` of `Server.cpp`: the per-path record. -/
structure PathInfo where
  refClients : List ClientId
  playCount : Nat
  recordClient : Option ClientId
  recordSessionId : SessionId
deriving DecidableEq, Repr

/-- The mutable state of `Server::Private`: the two maps
`std::map<const GstRTSPClient*, ClientInfo> clients` and
`std::map<std::string, PathInfo> paths`. -/
structure ServerState where
  clients : ClientId → Option ClientInfo
  paths : PathId → Option PathInfo

/-- The store at server construction: both maps empty. -/
def emptyState : ServerState :=
  { clients := fun _ => none, paths := fun _ => none }

/-- `std::set::emplace`: insert an element if it is not present. -/
def insertNew {α : Type} [DecidableEq α] (a : α) (l : List α) : List α :=
  if a ∈ l then l else a :: l

/-- The `refPaths` set of a client, `[]` when the client has no entry. -/
def clientRefPaths (s : ServerState) (c : ClientId) : List PathId :=
  match s.clients c with
  | none => []
  | some ci => ci.refPaths

/-- The `refClients` set of a path, `[]` when the path has no entry. -/
def pathRefClients (s : ServerState) (p : PathId) : List ClientId :=
  match s.paths p with
  | none => []
  | some pi => pi.refClients

/-- The `playCount` of a path, `0` when the path has no entry. -/
def pathPlayCount (s : ServerState) (p : PathId) : Nat :=
  match s.paths p with
  | none => 0
  | some pi => pi.playCount

/-- The `recordClient` of a path, `none` when the path has no entry. -/
def pathRecordClient (s : ServerState) (p : PathId) : Option ClientId :=
  (s.paths p).bind PathInfo.recordClient

/-- The `recordSessionId` of a path, `""` when the path has no entry. -/
def pathRecordSid (s : ServerState) (p : PathId) : SessionId :=
  match s.paths p with
  | none => ""
  | some pi => pi.recordSessionId

/-- The client entry written by `Server::Private::registerPath` (lines
178-184): create `{path}` if the client is absent, else emplace `path`. -/
def regClientInfo (s : ServerState) (client : ClientId) (path : PathId) : ClientInfo :=
  match s.clients client with
  | none => { refPaths := [path] }
  | some ci => { ci with refPaths := insertNew path ci.refPaths }

/-- The path entry written by `Server::Private::registerPath` (lines
186-198): create `{refClients = {client}, playCount = 0, recordClient =
nullptr}` (the session id string default-constructs empty) if the path is
absent, else emplace `client` into `refClients`. -/
def regPathInfo (s : ServerState) (client : ClientId) (path : PathId) : PathInfo :=
  match s.paths path with
  | none =>
    { refClients := [client], playCount := 0, recordClient := none, recordSessionId := "" }
  | some pi => { pi with refClients := insertNew client pi.refClients }

/-- `Server::Private::registerPath` (lines 176-201): register the
client-path reference on both sides and return the path entry (the C++
returns a reference into the map; here the returned `PathInfo` equals the
stored one). -/
def registerPath (client : ClientId) (path : PathId) (s : ServerState) :
    PathInfo × ServerState :=
  (regPathInfo s client path,
   { clients := Function.update s.clients client (some (regClientInfo s client path)),
     paths := Function.update s.paths path (some (regPathInfo s client path)) })

/-- `Server::Private::isRecording` (lines 165-174): false when the path
has no entry, else `recordClient || !recordSessionId.empty()`.  The
`client` argument is unused in the source (it is only logged). -/
def isRecording (client : ClientId) (path : PathId) (s : ServerState) : Bool :=
  match s.paths path with
  | none => false
  | some pi => pi.recordClient.isSome || pi.recordSessionId ≠ ""

/-- `Server::Private::beforePlay` (lines 277-301): with a positive
`maxClientsPerPath` and an existing path entry, refuse with 403 when
`playCount >= maxClientsPerPath - 1`; otherwise 200 OK. -/
def beforePlay (maxClientsPerPath : Nat) (path : PathId) (s : ServerState) : StatusCode :=
  match s.paths path with
  | none => .ok
  | some pi =>
    if 0 < maxClientsPerPath ∧ maxClientsPerPath - 1 ≤ pi.playCount then .forbidden
    else .ok

/-- `Server::Private::beforeRecord` (lines 323-341): refuse with 503 when
`isRecording`, else 200 OK.  Pure: the source reads the store and returns
a status code without mutating anything or emitting notifications. -/
def beforeRecord (client : ClientId) (path : PathId) (_sessionId : SessionId)
    (s : ServerState) : StatusCode :=
  if isRecording client path s then .serviceUnavailable else .ok

/-- `Server::Private::onPlay` (lines 304-320): `registerPath`, increment
`playCount` through the returned reference, and emit
`firstPlayerConnected(user, path)` when the post-increment count is 1.
`u` is the user string extracted from the context token. -/
def onPlay (client : ClientId) (path : PathId) (_sessionId : SessionId) (u : String)
    (s : ServerState) : ServerState × List Notification :=
  let r := registerPath client path s
  let pathInfo := { r.1 with playCount := r.1.playCount + 1 }
  ({ r.2 with paths := Function.update r.2.paths path (some pathInfo) },
   if pathInfo.playCount = 1 then [.firstPlayerConnected u path] else [])

/-- `Server::Private::onRecord` (lines 343-366): `registerPath`; when a
recorder is already present (`recordClient || !recordSessionId.empty()`)
only log; otherwise set both recorder fields and emit
`recorderConnected(user, path)`. -/
def onRecord (client : ClientId) (path : PathId) (sessionId : SessionId) (u : String)
    (s : ServerState) : ServerState × List Notification :=
  let r := registerPath client path s
  if r.1.recordClient.isSome ∨ r.1.recordSessionId ≠ "" then (r.2, [])
  else
    let pathInfo := { r.1 with recordClient := some client, recordSessionId := sessionId }
    ({ r.2 with paths := Function.update r.2.paths path (some pathInfo) },
     [.recorderConnected u path])

/-- `Server::Private::onTeardown` (lines 368-407): skip when the path has
no entry; clear the recorder fields and emit `recorderDisconnected` when
both the client and the session id match the recorder; else decrement a
positive `playCount` and emit `lastPlayerDisconnected` when it reaches 0;
else only log. -/
def onTeardown (client : ClientId) (path : PathId) (sessionId : SessionId)
    (s : ServerState) : ServerState × List Notification :=
  match s.paths path with
  | none => (s, [])
  | some pathInfo =>
    if pathInfo.recordClient = some client ∧ pathInfo.recordSessionId = sessionId then
      let cleared := { pathInfo with recordClient := none, recordSessionId := "" }
      ({ s with paths := Function.update s.paths path (some cleared) },
       [.recorderDisconnected path])
    else if 0 < pathInfo.playCount then
      let pathInfo' := { pathInfo with playCount := pathInfo.playCount - 1 }
      ({ s with paths := Function.update s.paths path (some pathInfo') },
       if pathInfo'.playCount = 0 then [.lastPlayerDisconnected path] else [])
    else (s, [])

/-- Body of the per-path loop of `Server::Private::onClientClosed` (lines
419-461), acting on one path entry: erase the client from `refClients`;
if the set became empty either flush a last player (no recorder) or flush
the recorder, and drop the entry; otherwise clear the recorder if the
departing client held it, and when exactly one reference remains with a
recorder still set, flush a residual `playCount` of 1.  Returns the new
entry (`none` when erased) and the emissions. -/
def closePathInfo (client : ClientId) (path : PathId) (pi : PathInfo) :
    Option PathInfo × List Notification :=
  let refClients := pi.refClients.erase client
  if refClients.isEmpty then
    match pi.recordClient with
    | none =>
      (none, if pi.playCount = 1 then [.lastPlayerDisconnected path] else [])
    | some _ => (none, [.recorderDisconnected path])
  else
    let r :=
      if pi.recordClient = some client then
        ({ pi with refClients := refClients, recordClient := none, recordSessionId := "" },
         [Notification.recorderDisconnected path])
      else
        ({ pi with refClients := refClients }, ([] : List Notification))
    if refClients.length = 1 ∧ r.1.recordClient.isSome ∧ r.1.playCount = 1 then
      (some { r.1 with playCount := r.1.playCount - 1 },
       r.2 ++ [.lastPlayerDisconnected path])
    else (some r.1, r.2)

/-- The effect of one loop iteration of `onClientClosed` on the stored
entry of its path (`none` stands for "no entry"). -/
def closeEffect (client : ClientId) (path : PathId) : Option PathInfo → Option PathInfo
  | none => none
  | some pi => (closePathInfo client path pi).1

/-- One loop iteration of `onClientClosed` as a store transformer: skip
(logging an inconsistency) when the path has no entry, else apply
`closePathInfo` to it. -/
def closePath (client : ClientId) (path : PathId) (s : ServerState) :
    ServerState × List Notification :=
  match s.paths path with
  | none => (s, [])
  | some pi =>
    let r := closePathInfo client path pi
    ({ s with paths := Function.update s.paths path r.1 }, r.2)

/-- The `for(const std::string& path: refPaths)` loop of
`onClientClosed`, threading the store and accumulating emissions. -/
def foldClose (client : ClientId) : List PathId → ServerState × List Notification →
    ServerState × List Notification
  | [], acc => acc
  | p :: rest, acc =>
    let r := closePath client p acc.1
    foldClose client rest (r.1, acc.2 ++ r.2)

/-- `Server::Private::onClientClosed` (lines 409-468): nothing when the
client has no entry; else run the per-path loop over its `refPaths` and
erase the client entry. -/
def onClientClosed (client : ClientId) (s : ServerState) :
    ServerState × List Notification :=
  match s.clients client with
  | none => (s, [])
  | some ci =>
    let r := foldClose client ci.refPaths (s, [])
    ({ r.1 with clients := Function.update r.1.clients client none }, r.2)

/-- The two `assert(pathInfo.playCount == 0 || pathInfo.playCount == 1)`
sites of `onClientClosed` (lines 429 and 454), evaluated on the entry the
loop iteration sees: `true` when the assertions would hold (sites not
reached count as holding). -/
def closePlayAssertOk (client : ClientId) (pi : PathInfo) : Bool :=
  let refClients := pi.refClients.erase client
  if refClients.isEmpty then
    match pi.recordClient with
    | none => pi.playCount = 0 ∨ pi.playCount = 1
    | some _ => true
  else
    let rec1 : Option ClientId :=
      if pi.recordClient = some client then none else pi.recordClient
    if refClients.length = 1 ∧ rec1.isSome then
      pi.playCount = 0 ∨ pi.playCount = 1
    else true

/-- Whether every `playCount` assertion holds along the per-path loop of
one `onClientClosed(client)` call run on store `s`. -/
def closedAssertsOk (client : ClientId) (s : ServerState) : Bool :=
  match s.clients client with
  | none => true
  | some ci => go ci.refPaths s
where
  go : List PathId → ServerState → Bool
    | [], _ => true
    | p :: rest, s =>
      (match s.paths p with
       | none => true
       | some pi => closePlayAssertOk client pi) && go rest (closePath client p s).1

/-- The four store-mutating lifecycle events, with the argument lists the
RTSP engine supplies (for play/record the user string stands for the
context's media-factory-role token). -/
inductive Event where
  | play (client : ClientId) (path : PathId) (sessionId : SessionId) (u : String)
  | record (client : ClientId) (path : PathId) (sessionId : SessionId) (u : String)
  | teardown (client : ClientId) (path : PathId) (sessionId : SessionId)
  | clientClosed (client : ClientId)

/-- Dispatch one event to its handler. -/
def applyEvent : Event → ServerState → ServerState × List Notification
  | .play c p sid u, s => onPlay c p sid u s
  | .record c p sid u, s => onRecord c p sid u s
  | .teardown c p sid, s => onTeardown c p sid s
  | .clientClosed c, s => onClientClosed c s

/-- Run a sequence of events, concatenating the emissions in order. -/
def runTrace : List Event → ServerState → ServerState × List Notification
  | [], s => (s, [])
  | e :: es, s =>
    let r := applyEvent e s
    let r' := runTrace es r.1
    (r'.1, r.2 ++ r'.2)

/-- Whether every `playCount` assertion of `onClientClosed` holds along a
whole event sequence run on store `s`. -/
def traceAssertsOk : List Event → ServerState → Bool
  | [], _ => true
  | e :: es, s =>
    (match e with
     | .clientClosed c => closedAssertsOk c s
     | _ => true) && traceAssertsOk es (applyEvent e s).1

/-- States reachable from the empty store by any interleaving of the four
store-mutating events with arbitrary arguments. -/
inductive Reachable : ServerState → Prop where
  | empty : Reachable emptyState
  | step (e : Event) {s : ServerState} : Reachable s → Reachable (applyEvent e s).1

/-- States reachable from the empty store when every `on_record` event
carries a non-empty session id (the ids issued by the RTSP engine are
never empty; an empty one would collide with the source's "no recorder"
sentinel). -/
inductive ReachableNE : ServerState → Prop where
  | empty : ReachableNE emptyState
  | play {s : ServerState} (c : ClientId) (p : PathId) (sid : SessionId) (u : String) :
      ReachableNE s → ReachableNE (onPlay c p sid u s).1
  | record {s : ServerState} (c : ClientId) (p : PathId) (sid : SessionId) (u : String) :
      ReachableNE s → sid ≠ "" → ReachableNE (onRecord c p sid u s).1
  | teardown {s : ServerState} (c : ClientId) (p : PathId) (sid : SessionId) :
      ReachableNE s → ReachableNE (onTeardown c p sid s).1
  | closed {s : ServerState} (c : ClientId) :
      ReachableNE s → ReachableNE (onClientClosed c s).1

/-- States reachable from the empty store when every `on_play` is
immediately preceded by a `beforePlay` check on the same path that
returned OK (records, teardowns and closures are unrestricted). -/
inductive AdmittedReachable (m : Nat) : ServerState → Prop where
  | empty : AdmittedReachable m emptyState
  | play {s : ServerState} (c : ClientId) (p : PathId) (sid : SessionId) (u : String) :
      AdmittedReachable m s → beforePlay m p s = .ok →
      AdmittedReachable m (onPlay c p sid u s).1
  | record {s : ServerState} (c : ClientId) (p : PathId) (sid : SessionId) (u : String) :
      AdmittedReachable m s → AdmittedReachable m (onRecord c p sid u s).1
  | teardown {s : ServerState} (c : ClientId) (p : PathId) (sid : SessionId) :
      AdmittedReachable m s → AdmittedReachable m (onTeardown c p sid s).1
  | closed {s : ServerState} (c : ClientId) :
      AdmittedReachable m s → AdmittedReachable m (onClientClosed c s).1

/-- Modelled from the spec wording of claim C2 (the `on_teardown` bullet
list of section 4.D): spec-side description of `on_teardown`, to be
compared with the source-side `onTeardown`. -/
def teardownSpec (client : ClientId) (path : PathId) (sessionId : SessionId)
    (s : ServerState) : ServerState × List Notification :=
  match s.paths path with
  | none => (s, [])
  | some pathInfo =>
    if pathInfo.recordClient = some client ∧ pathInfo.recordSessionId = sessionId then
      let cleared := { pathInfo with recordClient := none, recordSessionId := "" }
      ({ s with paths := Function.update s.paths path (some cleared) },
       [.recorderDisconnected path])
    else if 0 < pathInfo.playCount then
      let dec := { pathInfo with playCount := pathInfo.playCount - 1 }
      ({ s with paths := Function.update s.paths path (some dec) },
       if pathInfo.playCount - 1 = 0 then [.lastPlayerDisconnected path] else [])
    else (s, [])

/-- Both reference sets of the store are duplicate-free (they model
`std::set`s, into which `registerPath` only ever emplaces). -/
def NodupState (s : ServerState) : Prop :=
  (∀ c, (clientRefPaths s c).Nodup) ∧ (∀ p, (pathRefClients s p).Nodup)

/-- A cleared `recordClient` always comes with a cleared
`recordSessionId`: the source clears and creates the two fields
together, so `recordClient == nullptr` implies the session id is empty. -/
def RecConsistent (s : ServerState) : Prop :=
  ∀ p pi, s.paths p = some pi → pi.recordClient = none → pi.recordSessionId = ""

/-- The store invariant of section 8 of the spec: bidirectional
client-path consistency, paired recorder fields, recorder membership and
non-empty reference sets of existing path entries. -/
structure FullInv (s : ServerState) : Prop where
  nodup : NodupState s
  biRef : ∀ c p, p ∈ clientRefPaths s c ↔ c ∈ pathRefClients s p
  recIff : ∀ p pi, s.paths p = some pi →
    (pi.recordClient.isSome = true ↔ pi.recordSessionId ≠ "")
  recMem : ∀ p pi d, s.paths p = some pi → pi.recordClient = some d → d ∈ pi.refClients
  nonemp : ∀ p pi, s.paths p = some pi → pi.refClients ≠ []

/-- Every existing path entry has `playCount ≤ m`. -/
def PlayBound (m : Nat) (s : ServerState) : Prop :=
  ∀ p pi, s.paths p = some pi → pi.playCount ≤ m

/-- The event sequence exhibiting the abrupt-close accounting bug: two
distinct clients each start one play session on the same path, then both
connections close without a TEARDOWN. -/
def badTrace : List Event :=
  [.play 1 "/a" "s1" "", .play 2 "/a" "s2" "", .clientClosed 1, .clientClosed 2]

/-- The stores along `badTrace`, in order. -/
def badS1 : ServerState := (onPlay 1 "/a" "s1" "" emptyState).1

/-- Store after the second play of `badTrace`. -/
def badS2 : ServerState := (onPlay 2 "/a" "s2" "" badS1).1

/-- Store after the first abrupt close of `badTrace`. -/
def badS3 : ServerState := (onClientClosed 1 badS2).1

/-- Store after the second abrupt close of `badTrace`. -/
def badS4 : ServerState := (onClientClosed 2 badS3).1

/-! ### Basic lemmas about the set operations -/

theorem mem_insertNew {α : Type} [DecidableEq α] {a b : α} {l : List α} :
    a ∈ insertNew b l ↔ a = b ∨ a ∈ l := by
  unfold insertNew
  split
  · constructor
    · exact fun h => Or.inr h
    · rintro (rfl | h) <;> assumption
  · simp [List.mem_cons]

theorem self_mem_insertNew {α : Type} [DecidableEq α] (a : α) (l : List α) :
    a ∈ insertNew a l :=
  mem_insertNew.mpr (Or.inl rfl)

theorem insertNew_nodup {α : Type} [DecidableEq α] {a : α} {l : List α}
    (h : l.Nodup) : (insertNew a l).Nodup := by
  unfold insertNew
  split
  · exact h
  · exact List.Nodup.cons (by assumption) h

theorem insertNew_ne_nil {α : Type} [DecidableEq α] (a : α) (l : List α) :
    insertNew a l ≠ [] := by
  unfold insertNew
  split
  · intro h
    subst h
    simp_all
  · simp

theorem erase_eq_nil_cases {α : Type} [DecidableEq α] {a : α} :
    ∀ {l : List α}, l.erase a = [] → l = [] ∨ l = [a]
  | [], _ => Or.inl rfl
  | [x], h => by
    by_cases hx : x = a
    · exact Or.inr (by rw [hx])
    · rw [List.erase_cons_tail (by simpa using hx)] at h
      exact absurd h (by simp)
  | x :: y :: t, h => by
    by_cases hx : x = a
    · subst hx
      rw [List.erase_cons_head] at h
      exact absurd h (by simp)
    · rw [List.erase_cons_tail (by simpa using hx)] at h
      exact absurd h (by simp)

/-! ### Characterization of registerPath and the play/record handlers -/

theorem regClientInfo_refPaths (s : ServerState) (c : ClientId) (p : PathId) :
    (regClientInfo s c p).refPaths = insertNew p (clientRefPaths s c) := by
  unfold regClientInfo clientRefPaths
  cases s.clients c <;> simp [insertNew]

theorem regPathInfo_refClients (s : ServerState) (c : ClientId) (p : PathId) :
    (regPathInfo s c p).refClients = insertNew c (pathRefClients s p) := by
  unfold regPathInfo pathRefClients
  cases s.paths p <;> simp [insertNew]

theorem regPathInfo_playCount (s : ServerState) (c : ClientId) (p : PathId) :
    (regPathInfo s c p).playCount = pathPlayCount s p := by
  unfold regPathInfo pathPlayCount
  cases s.paths p <;> rfl

theorem regPathInfo_recordClient (s : ServerState) (c : ClientId) (p : PathId) :
    (regPathInfo s c p).recordClient = pathRecordClient s p := by
  unfold regPathInfo pathRecordClient
  cases s.paths p <;> rfl

theorem regPathInfo_recordSessionId (s : ServerState) (c : ClientId) (p : PathId) :
    (regPathInfo s c p).recordSessionId = pathRecordSid s p := by
  unfold regPathInfo pathRecordSid
  cases s.paths p <;> rfl

theorem registerPath_snd_clients (c : ClientId) (p : PathId) (s : ServerState) :
    (registerPath c p s).2.clients =
      Function.update s.clients c (some (regClientInfo s c p)) := rfl

theorem registerPath_snd_paths (c : ClientId) (p : PathId) (s : ServerState) :
    (registerPath c p s).2.paths =
      Function.update s.paths p (some (regPathInfo s c p)) := rfl

theorem onPlay_fst_clients (c : ClientId) (p : PathId) (sid : SessionId) (u : String)
    (s : ServerState) : (onPlay c p sid u s).1.clients =
      Function.update s.clients c (some (regClientInfo s c p)) := rfl

theorem onPlay_fst_paths (c : ClientId) (p : PathId) (sid : SessionId) (u : String)
    (s : ServerState) : (onPlay c p sid u s).1.paths =
      Function.update s.paths p
        (some { regPathInfo s c p with playCount := (regPathInfo s c p).playCount + 1 }) := by
  show Function.update (Function.update s.paths p (some (regPathInfo s c p))) p _ = _
  rw [Function.update_idem]
  rfl

theorem onPlay_snd (c : ClientId) (p : PathId) (sid : SessionId) (u : String)
    (s : ServerState) : (onPlay c p sid u s).2 =
      if pathPlayCount s p + 1 = 1 then [.firstPlayerConnected u p] else [] := by
  show (if (regPathInfo s c p).playCount + 1 = 1 then _ else _) = _
  rw [regPathInfo_playCount]

theorem onRecord_busy_or_free (c : ClientId) (p : PathId) (sid : SessionId) (u : String)
    (s : ServerState) :
    ((regPathInfo s c p).recordClient.isSome ∨ (regPathInfo s c p).recordSessionId ≠ "") ∧
      onRecord c p sid u s = ((registerPath c p s).2, []) ∨
    (regPathInfo s c p).recordClient = none ∧ (regPathInfo s c p).recordSessionId = "" ∧
      onRecord c p sid u s =
        ({ clients := (registerPath c p s).2.clients,
           paths := Function.update s.paths p
             (some { regPathInfo s c p with
                       recordClient := some c, recordSessionId := sid }) },
         [.recorderConnected u p]) := by
  by_cases hb :
      (regPathInfo s c p).recordClient.isSome ∨ (regPathInfo s c p).recordSessionId ≠ ""
  · refine Or.inl ⟨hb, ?_⟩
    show (if (regPathInfo s c p).recordClient.isSome ∨
        (regPathInfo s c p).recordSessionId ≠ "" then _ else _) = _
    rw [if_pos hb]
  · push_neg at hb
    refine Or.inr ⟨Option.not_isSome_iff_eq_none.mp (by simpa using hb.1), hb.2, ?_⟩
    show (if (regPathInfo s c p).recordClient.isSome ∨
        (regPathInfo s c p).recordSessionId ≠ "" then _ else _) = _
    rw [if_neg (by simpa using hb)]
    rw [registerPath_snd_paths, Function.update_idem]
    rfl

theorem onRecord_fst_clients (c : ClientId) (p : PathId) (sid : SessionId) (u : String)
    (s : ServerState) : (onRecord c p sid u s).1.clients =
      Function.update s.clients c (some (regClientInfo s c p)) := by
  rcases onRecord_busy_or_free c p sid u s with ⟨_, h⟩ | ⟨_, _, h⟩ <;> rw [h] <;> rfl

theorem pathRefClients_of_update {t s : ServerState} {p : PathId} {pi : PathInfo}
    (h : t.paths = Function.update s.paths p (some pi)) (q : PathId) :
    pathRefClients t q = if q = p then pi.refClients else pathRefClients s q := by
  unfold pathRefClients
  rw [h]
  by_cases hq : q = p
  · subst hq
    rw [Function.update_same, if_pos rfl]
  · rw [Function.update_noteq hq, if_neg hq]

theorem clientRefPaths_of_update {t s : ServerState} {c : ClientId} {ci : ClientInfo}
    (h : t.clients = Function.update s.clients c (some ci)) (c' : ClientId) :
    clientRefPaths t c' = if c' = c then ci.refPaths else clientRefPaths s c' := by
  unfold clientRefPaths
  rw [h]
  by_cases hc : c' = c
  · subst hc
    rw [Function.update_same, if_pos rfl]
  · rw [Function.update_noteq hc, if_neg hc]

theorem onRecord_fst_paths_refClients (c : ClientId) (p : PathId) (sid : SessionId)
    (u : String) (s : ServerState) (q : PathId) :
    pathRefClients (onRecord c p sid u s).1 q =
      if q = p then insertNew c (pathRefClients s p) else pathRefClients s q := by
  rcases onRecord_busy_or_free c p sid u s with ⟨_, h⟩ | ⟨_, _, h⟩ <;> rw [h]
  · rw [pathRefClients_of_update (registerPath_snd_paths c p s) q, regPathInfo_refClients]
  · rw [pathRefClients_of_update rfl q]
    rw [show ({ regPathInfo s c p with
        recordClient := some c, recordSessionId := sid } : PathInfo).refClients =
      (regPathInfo s c p).refClients from rfl]
    rw [regPathInfo_refClients]

theorem onPlay_clientRefPaths (c : ClientId) (p : PathId) (sid : SessionId) (u : String)
    (s : ServerState) (c' : ClientId) :
    clientRefPaths (onPlay c p sid u s).1 c' =
      if c' = c then insertNew p (clientRefPaths s c) else clientRefPaths s c' := by
  rw [clientRefPaths_of_update (onPlay_fst_clients c p sid u s) c', regClientInfo_refPaths]

theorem onRecord_clientRefPaths (c : ClientId) (p : PathId) (sid : SessionId) (u : String)
    (s : ServerState) (c' : ClientId) :
    clientRefPaths (onRecord c p sid u s).1 c' =
      if c' = c then insertNew p (clientRefPaths s c) else clientRefPaths s c' := by
  rw [clientRefPaths_of_update (onRecord_fst_clients c p sid u s) c', regClientInfo_refPaths]

theorem onPlay_pathRefClients (c : ClientId) (p : PathId) (sid : SessionId) (u : String)
    (s : ServerState) (q : PathId) :
    pathRefClients (onPlay c p sid u s).1 q =
      if q = p then insertNew c (pathRefClients s p) else pathRefClients s q := by
  rw [pathRefClients_of_update (onPlay_fst_paths c p sid u s) q]
  rw [show ({ regPathInfo s c p with
      playCount := (regPathInfo s c p).playCount + 1 } : PathInfo).refClients =
    (regPathInfo s c p).refClients from rfl]
  rw [regPathInfo_refClients]

/-! ### Characterization of onTeardown -/

theorem onTeardown_eq_cases (c : ClientId) (p : PathId) (sid : SessionId)
    (s : ServerState) :
    (s.paths p = none ∧ onTeardown c p sid s = (s, []))
  ∨ (∃ pi, s.paths p = some pi ∧ pi.recordClient = some c ∧ pi.recordSessionId = sid ∧
      onTeardown c p sid s =
        ({ clients := s.clients,
           paths := Function.update s.paths p
             (some { pi with recordClient := none, recordSessionId := "" }) },
         [.recorderDisconnected p]))
  ∨ (∃ pi, s.paths p = some pi ∧ ¬(pi.recordClient = some c ∧ pi.recordSessionId = sid) ∧
      0 < pi.playCount ∧
      onTeardown c p sid s =
        ({ clients := s.clients,
           paths := Function.update s.paths p
             (some { pi with playCount := pi.playCount - 1 }) },
         if pi.playCount - 1 = 0 then [.lastPlayerDisconnected p] else []))
  ∨ (∃ pi, s.paths p = some pi ∧ ¬(pi.recordClient = some c ∧ pi.recordSessionId = sid) ∧
      pi.playCount = 0 ∧ onTeardown c p sid s = (s, [])) := by
  rcases hp : s.paths p with _ | pi
  · refine Or.inl ⟨rfl, ?_⟩
    unfold onTeardown
    rw [hp]
  · by_cases h1 : pi.recordClient = some c ∧ pi.recordSessionId = sid
    · refine Or.inr (Or.inl ⟨pi, rfl, h1.1, h1.2, ?_⟩)
      unfold onTeardown
      simp only [hp]
      rw [if_pos h1]
    · by_cases h2 : 0 < pi.playCount
      · refine Or.inr (Or.inr (Or.inl ⟨pi, rfl, h1, h2, ?_⟩))
        unfold onTeardown
        simp only [hp]
        rw [if_neg h1, if_pos h2]
      · refine Or.inr (Or.inr (Or.inr ⟨pi, rfl, h1, Nat.eq_zero_of_not_pos h2, ?_⟩))
        unfold onTeardown
        simp only [hp]
        rw [if_neg h1, if_neg h2]

theorem onTeardown_fst_clients (c : ClientId) (p : PathId) (sid : SessionId)
    (s : ServerState) : (onTeardown c p sid s).1.clients = s.clients := by
  rcases onTeardown_eq_cases c p sid s with ⟨_, h⟩ | ⟨pi, _, _, _, h⟩ |
    ⟨pi, _, _, _, h⟩ | ⟨pi, _, _, _, h⟩ <;> rw [h]

theorem onTeardown_fst_paths_ne (c : ClientId) (p : PathId) (sid : SessionId)
    (s : ServerState) (q : PathId) (hq : q ≠ p) :
    (onTeardown c p sid s).1.paths q = s.paths q := by
  rcases onTeardown_eq_cases c p sid s with ⟨_, h⟩ | ⟨pi, _, _, _, h⟩ |
    ⟨pi, _, _, _, h⟩ | ⟨pi, _, _, _, h⟩ <;> rw [h]
  · exact Function.update_noteq hq _ _
  · exact Function.update_noteq hq _ _

theorem onTeardown_pathRefClients (c : ClientId) (p : PathId) (sid : SessionId)
    (s : ServerState) (q : PathId) :
    pathRefClients (onTeardown c p sid s).1 q = pathRefClients s q := by
  rcases onTeardown_eq_cases c p sid s with ⟨_, h⟩ | ⟨pi, hp, _, _, h⟩ |
    ⟨pi, hp, _, _, h⟩ | ⟨pi, _, _, _, h⟩ <;> rw [h]
  · rw [pathRefClients_of_update rfl q]
    by_cases hq : q = p
    · subst hq
      rw [if_pos rfl]
      unfold pathRefClients
      rw [hp]
    · rw [if_neg hq]
  · rw [pathRefClients_of_update rfl q]
    by_cases hq : q = p
    · subst hq
      rw [if_pos rfl]
      unfold pathRefClients
      rw [hp]
    · rw [if_neg hq]

/-! ### Characterization of onClientClosed -/

theorem closePath_fst_clients (c : ClientId) (p : PathId) (s : ServerState) :
    (closePath c p s).1.clients = s.clients := by
  unfold closePath
  rcases hp : s.paths p with _ | pi
  · rfl
  · rfl

theorem closePath_fst_paths (c : ClientId) (p : PathId) (s : ServerState) (q : PathId) :
    (closePath c p s).1.paths q =
      if q = p then closeEffect c p (s.paths p) else s.paths q := by
  unfold closePath closeEffect
  rcases hp : s.paths p with _ | pi
  · by_cases hq : q = p
    · subst hq
      rw [if_pos rfl, hp]
    · rw [if_neg hq]
  · by_cases hq : q = p
    · subst hq
      rw [if_pos rfl]
      show Function.update s.paths q _ q = _
      rw [Function.update_same]
    · rw [if_neg hq]
      show Function.update s.paths p _ q = _
      rw [Function.update_noteq hq]

theorem foldClose_fst_clients (c : ClientId) :
    ∀ (l : List PathId) (acc : ServerState × List Notification),
      (foldClose c l acc).1.clients = acc.1.clients
  | [], _ => rfl
  | p :: rest, acc => by
    unfold foldClose
    rw [foldClose_fst_clients c rest]
    exact closePath_fst_clients c p acc.1

theorem foldClose_fst_paths (c : ClientId) :
    ∀ (l : List PathId), l.Nodup → ∀ (acc : ServerState × List Notification) (q : PathId),
      (foldClose c l acc).1.paths q =
        if q ∈ l then closeEffect c q (acc.1.paths q) else acc.1.paths q
  | [], _, acc, q => by simp [foldClose]
  | p :: rest, hnd, acc, q => by
    unfold foldClose
    have hrest : rest.Nodup := (List.nodup_cons.mp hnd).2
    have hpnot : p ∉ rest := (List.nodup_cons.mp hnd).1
    rw [foldClose_fst_paths c rest hrest]
    by_cases hq : q = p
    · subst hq
      rw [if_neg hpnot, closePath_fst_paths c q acc.1 q, if_pos rfl,
        if_pos (List.mem_cons_self q rest)]
    · rw [closePath_fst_paths c p acc.1 q, if_neg hq]
      by_cases hqr : q ∈ rest
      · rw [if_pos hqr, if_pos (List.mem_cons_of_mem p hqr)]
      · rw [if_neg hqr, if_neg (by simp [hq, hqr])]

theorem onClientClosed_fst_clients (c : ClientId) (s : ServerState) :
    (onClientClosed c s).1.clients = Function.update s.clients c none := by
  unfold onClientClosed
  rcases hc : s.clients c with _ | ci
  · rw [show (Function.update s.clients c none) = s.clients from ?_]
    · rw [← hc]
      exact Function.update_eq_self c s.clients
  · show Function.update (foldClose c ci.refPaths (s, [])).1.clients c none = _
    rw [foldClose_fst_clients]

theorem onClientClosed_fst_paths (c : ClientId) (s : ServerState)
    (hnd : (clientRefPaths s c).Nodup) (q : PathId) :
    (onClientClosed c s).1.paths q =
      if q ∈ clientRefPaths s c then closeEffect c q (s.paths q) else s.paths q := by
  unfold onClientClosed
  rcases hc : s.clients c with _ | ci
  · rw [show clientRefPaths s c = [] from by unfold clientRefPaths; rw [hc]]
    simp
  · have hci : clientRefPaths s c = ci.refPaths := by unfold clientRefPaths; rw [hc]
    rw [hci] at hnd ⊢
    show (foldClose c ci.refPaths (s, [])).1.paths q = _
    exact foldClose_fst_paths c ci.refPaths hnd (s, []) q

theorem closePathInfo_fst_cases (c : ClientId) (p : PathId) (pi : PathInfo) :
    ((closePathInfo c p pi).1 = none ∧ pi.refClients.erase c = [])
  ∨ (∃ pi', (closePathInfo c p pi).1 = some pi' ∧
      pi'.refClients = pi.refClients.erase c ∧ pi'.refClients ≠ [] ∧
      pi'.playCount ≤ pi.playCount ∧
      ((pi'.recordClient = none ∧ pi'.recordSessionId = "") ∨
       (pi'.recordClient = pi.recordClient ∧ pi'.recordSessionId = pi.recordSessionId ∧
        pi.recordClient ≠ some c))) := by
  unfold closePathInfo
  simp only []
  by_cases he : (pi.refClients.erase c).isEmpty = true
  · rw [if_pos he]
    refine Or.inl ⟨?_, List.isEmpty_iff.mp he⟩
    rcases pi.recordClient with _ | d
    · rfl
    · rfl
  · rw [if_neg he]
    have hne : pi.refClients.erase c ≠ [] := by
      intro h
      exact he (List.isEmpty_iff.mpr h)
    by_cases hrec : pi.recordClient = some c
    · rw [if_pos hrec]
      split
      · rename_i hcond
        exact absurd hcond.2.1 (by simp)
      · exact Or.inr ⟨_, rfl, rfl, hne, Nat.le_refl _, Or.inl ⟨rfl, rfl⟩⟩
    · rw [if_neg hrec]
      split
      · exact Or.inr ⟨_, rfl, rfl, hne, Nat.sub_le _ _, Or.inr ⟨rfl, rfl, hrec⟩⟩
      · exact Or.inr ⟨_, rfl, rfl, hne, Nat.le_refl _, Or.inr ⟨rfl, rfl, hrec⟩⟩

theorem closeEffect_cases (c : ClientId) (p : PathId) (o : Option PathInfo) :
    closeEffect c p o = none ∨
    (∃ pi pi', o = some pi ∧ closeEffect c p o = some pi' ∧
      pi'.refClients = pi.refClients.erase c ∧ pi'.refClients ≠ [] ∧
      pi'.playCount ≤ pi.playCount ∧
      ((pi'.recordClient = none ∧ pi'.recordSessionId = "") ∨
       (pi'.recordClient = pi.recordClient ∧ pi'.recordSessionId = pi.recordSessionId ∧
        pi.recordClient ≠ some c))) := by
  rcases o with _ | pi
  · exact Or.inl rfl
  · rcases closePathInfo_fst_cases c p pi with ⟨h, _⟩ | ⟨pi', h, h1, h2, h3, h4⟩
    · exact Or.inl h
    · exact Or.inr ⟨pi, pi', rfl, h, h1, h2, h3, h4⟩

theorem closeEffect_none_erase (c : ClientId) (p : PathId) (pi : PathInfo)
    (h : closeEffect c p (some pi) = none) : pi.refClients.erase c = [] := by
  rcases closePathInfo_fst_cases c p pi with ⟨_, h2⟩ | ⟨pi', h1, _⟩
  · exact h2
  · rw [show closeEffect c p (some pi) = (closePathInfo c p pi).1 from rfl, h1] at h
    exact absurd h (by simp)

/-! ### Base invariant: duplicate-freedom and record-field consistency -/

theorem clientRefPaths_eq_of {s : ServerState} {c : ClientId} {ci : ClientInfo}
    (h : s.clients c = some ci) : clientRefPaths s c = ci.refPaths := by
  unfold clientRefPaths
  rw [h]

theorem pathRefClients_eq_of_none {s : ServerState} {p : PathId}
    (h : s.paths p = none) : pathRefClients s p = [] := by
  unfold pathRefClients
  rw [h]

theorem lookup_update_cases {t s : ServerState} {p : PathId} {X : PathInfo}
    (ht : t.paths = Function.update s.paths p (some X)) {q : PathId} {pi : PathInfo}
    (hq : t.paths q = some pi) : (q = p ∧ pi = X) ∨ (q ≠ p ∧ s.paths q = some pi) := by
  rw [ht] at hq
  by_cases hqp : q = p
  · subst hqp
    rw [Function.update_same] at hq
    exact Or.inl ⟨rfl, (Option.some.inj hq).symm⟩
  · rw [Function.update_noteq hqp] at hq
    exact Or.inr ⟨hqp, hq⟩

theorem pathRefClients_eq_of {s : ServerState} {p : PathId} {pi : PathInfo}
    (h : s.paths p = some pi) : pathRefClients s p = pi.refClients := by
  unfold pathRefClients
  rw [h]

theorem clientRefPaths_congr {t s : ServerState} (h : t.clients = s.clients)
    (c : ClientId) : clientRefPaths t c = clientRefPaths s c := by
  unfold clientRefPaths
  rw [h]

theorem clientRefPaths_of_update_none {t s : ServerState} {c : ClientId}
    (h : t.clients = Function.update s.clients c none) (c' : ClientId) :
    clientRefPaths t c' = if c' = c then [] else clientRefPaths s c' := by
  unfold clientRefPaths
  rw [h]
  by_cases hc : c' = c
  · subst hc
    rw [Function.update_same, if_pos rfl]
  · rw [Function.update_noteq hc, if_neg hc]

theorem regPathInfo_recConsistent {s : ServerState} (hJ : RecConsistent s)
    (c : ClientId) (p : PathId) :
    (regPathInfo s c p).recordClient = none → (regPathInfo s c p).recordSessionId = "" := by
  unfold regPathInfo
  rcases hp : s.paths p with _ | pi
  · intro _
    rfl
  · exact hJ p pi hp

theorem nodupState_onPlay {s : ServerState} (h : NodupState s) (c : ClientId)
    (p : PathId) (sid : SessionId) (u : String) : NodupState (onPlay c p sid u s).1 := by
  constructor
  · intro c'
    rw [onPlay_clientRefPaths c p sid u s c']
    by_cases hc : c' = c
    · rw [if_pos hc]
      exact insertNew_nodup (h.1 c)
    · rw [if_neg hc]
      exact h.1 c'
  · intro q
    rw [onPlay_pathRefClients c p sid u s q]
    by_cases hq : q = p
    · rw [if_pos hq]
      exact insertNew_nodup (h.2 p)
    · rw [if_neg hq]
      exact h.2 q

theorem nodupState_onRecord {s : ServerState} (h : NodupState s) (c : ClientId)
    (p : PathId) (sid : SessionId) (u : String) : NodupState (onRecord c p sid u s).1 := by
  constructor
  · intro c'
    rw [onRecord_clientRefPaths c p sid u s c']
    by_cases hc : c' = c
    · rw [if_pos hc]
      exact insertNew_nodup (h.1 c)
    · rw [if_neg hc]
      exact h.1 c'
  · intro q
    rw [onRecord_fst_paths_refClients c p sid u s q]
    by_cases hq : q = p
    · rw [if_pos hq]
      exact insertNew_nodup (h.2 p)
    · rw [if_neg hq]
      exact h.2 q

theorem nodupState_onTeardown {s : ServerState} (h : NodupState s) (c : ClientId)
    (p : PathId) (sid : SessionId) : NodupState (onTeardown c p sid s).1 := by
  constructor
  · intro c'
    rw [clientRefPaths_congr (onTeardown_fst_clients c p sid s) c']
    exact h.1 c'
  · intro q
    rw [onTeardown_pathRefClients c p sid s q]
    exact h.2 q

theorem nodupState_onClientClosed {s : ServerState} (h : NodupState s) (c : ClientId) :
    NodupState (onClientClosed c s).1 := by
  constructor
  · intro c'
    rw [clientRefPaths_of_update_none (onClientClosed_fst_clients c s) c']
    by_cases hc : c' = c
    · rw [if_pos hc]
      exact List.nodup_nil
    · rw [if_neg hc]
      exact h.1 c'
  · intro q
    have hpaths := onClientClosed_fst_paths c s (h.1 c) q
    by_cases hq : q ∈ clientRefPaths s c
    · rw [if_pos hq] at hpaths
      rcases closeEffect_cases c q (s.paths q) with hce | ⟨pi, pi', hpi, hce, h1, _⟩
      · rw [hce] at hpaths
        rw [pathRefClients_eq_of_none hpaths]
        exact List.nodup_nil
      · rw [hce] at hpaths
        rw [pathRefClients_eq_of hpaths, h1]
        have := h.2 q
        rw [pathRefClients_eq_of hpi] at this
        exact this.erase c
    · rw [if_neg hq] at hpaths
      unfold pathRefClients
      rw [hpaths]
      have := h.2 q
      unfold pathRefClients at this
      exact this

theorem recConsistent_onPlay {s : ServerState} (hJ : RecConsistent s) (c : ClientId)
    (p : PathId) (sid : SessionId) (u : String) : RecConsistent (onPlay c p sid u s).1 := by
  intro q pi hq
  rw [onPlay_fst_paths c p sid u s] at hq
  by_cases hqp : q = p
  · subst hqp
    rw [Function.update_same] at hq
    cases hq
    exact regPathInfo_recConsistent hJ c q
  · rw [Function.update_noteq hqp] at hq
    exact hJ q pi hq

theorem recConsistent_onRecord {s : ServerState} (hJ : RecConsistent s) (c : ClientId)
    (p : PathId) (sid : SessionId) (u : String) : RecConsistent (onRecord c p sid u s).1 := by
  intro q pi hq
  rcases onRecord_busy_or_free c p sid u s with ⟨_, hr⟩ | ⟨_, _, hr⟩ <;> rw [hr] at hq
  · rcases lookup_update_cases (registerPath_snd_paths c p s) hq with ⟨hqp, rfl⟩ | ⟨_, hq2⟩
    · subst hqp
      exact regPathInfo_recConsistent hJ c q
    · exact hJ q pi hq2
  · rcases lookup_update_cases rfl hq with ⟨hqp, rfl⟩ | ⟨_, hq2⟩
    · intro hnone
      exact absurd hnone (by simp)
    · exact hJ q pi hq2

theorem recConsistent_onTeardown {s : ServerState} (hJ : RecConsistent s) (c : ClientId)
    (p : PathId) (sid : SessionId) : RecConsistent (onTeardown c p sid s).1 := by
  intro q pi hq
  rcases onTeardown_eq_cases c p sid s with ⟨_, hr⟩ | ⟨pi0, hp0, _, _, hr⟩ |
    ⟨pi0, hp0, _, _, hr⟩ | ⟨pi0, _, _, _, hr⟩ <;> rw [hr] at hq
  · exact hJ q pi hq
  · rcases lookup_update_cases rfl hq with ⟨hqp, rfl⟩ | ⟨_, hq2⟩
    · intro _
      rfl
    · exact hJ q pi hq2
  · rcases lookup_update_cases rfl hq with ⟨hqp, rfl⟩ | ⟨_, hq2⟩
    · subst hqp
      exact hJ q pi0 hp0
    · exact hJ q pi hq2
  · exact hJ q pi hq

theorem recConsistent_onClientClosed {s : ServerState} (hJ : RecConsistent s)
    (hnd : NodupState s) (c : ClientId) : RecConsistent (onClientClosed c s).1 := by
  intro q pi hq
  rw [onClientClosed_fst_paths c s (hnd.1 c) q] at hq
  by_cases hmem : q ∈ clientRefPaths s c
  · rw [if_pos hmem] at hq
    rcases closeEffect_cases c q (s.paths q) with hce | ⟨pi0, pi', hpi, hce, _, _, _, hrec⟩
    · rw [hce] at hq
      cases hq
    · rw [hce] at hq
      cases hq
      rcases hrec with ⟨_, h2⟩ | ⟨h1, h2, _⟩
      · intro _
        exact h2
      · rw [h1, h2]
        exact hJ q pi0 hpi
  · rw [if_neg hmem] at hq
    exact hJ q pi hq

theorem baseInv_step (e : Event) {s : ServerState} (h : NodupState s ∧ RecConsistent s) :
    NodupState (applyEvent e s).1 ∧ RecConsistent (applyEvent e s).1 := by
  cases e with
  | play c p sid u =>
    exact ⟨nodupState_onPlay h.1 c p sid u, recConsistent_onPlay h.2 c p sid u⟩
  | record c p sid u =>
    exact ⟨nodupState_onRecord h.1 c p sid u, recConsistent_onRecord h.2 c p sid u⟩
  | teardown c p sid =>
    exact ⟨nodupState_onTeardown h.1 c p sid, recConsistent_onTeardown h.2 c p sid⟩
  | clientClosed c =>
    exact ⟨nodupState_onClientClosed h.1 c, recConsistent_onClientClosed h.2 h.1 c⟩

theorem emptyState_nodup_recConsistent : NodupState emptyState ∧ RecConsistent emptyState := by
  refine ⟨⟨fun c => ?_, fun p => ?_⟩, fun p pi hp => ?_⟩
  · exact List.nodup_nil
  · exact List.nodup_nil
  · cases hp

theorem reachable_baseInv {s : ServerState} (h : Reachable s) :
    NodupState s ∧ RecConsistent s := by
  induction h with
  | empty => exact emptyState_nodup_recConsistent
  | step e hs ih => exact baseInv_step e ih

theorem reachableNE_reachable {s : ServerState} (h : ReachableNE s) : Reachable s := by
  induction h with
  | empty => exact .empty
  | play c p sid u _ ih => exact .step (.play c p sid u) ih
  | record c p sid u _ _ ih => exact .step (.record c p sid u) ih
  | teardown c p sid _ ih => exact .step (.teardown c p sid) ih
  | closed c _ ih => exact .step (.clientClosed c) ih

theorem admittedReachable_reachable {m : Nat} {s : ServerState}
    (h : AdmittedReachable m s) : Reachable s := by
  induction h with
  | empty => exact .empty
  | play c p sid u _ _ ih => exact .step (.play c p sid u) ih
  | record c p sid u _ ih => exact .step (.record c p sid u) ih
  | teardown c p sid _ ih => exact .step (.teardown c p sid) ih
  | closed c _ ih => exact .step (.clientClosed c) ih

/-! ### The full store invariant (claim C3) -/

theorem pathRecordClient_some {s : ServerState} {p : PathId} {d : ClientId}
    (h : pathRecordClient s p = some d) :
    ∃ pi, s.paths p = some pi ∧ pi.recordClient = some d := by
  unfold pathRecordClient at h
  rcases hp : s.paths p with _ | pi
  · rw [hp] at h
    cases h
  · rw [hp] at h
    exact ⟨pi, rfl, h⟩

theorem regPathInfo_recIff {s : ServerState}
    (hIff : ∀ p pi, s.paths p = some pi →
      (pi.recordClient.isSome = true ↔ pi.recordSessionId ≠ ""))
    (c : ClientId) (p : PathId) :
    ((regPathInfo s c p).recordClient.isSome = true ↔
      (regPathInfo s c p).recordSessionId ≠ "") := by
  unfold regPathInfo
  rcases hp : s.paths p with _ | pi
  · simp
  · exact hIff p pi hp

theorem biRef_register {s t : ServerState} {c : ClientId} {p : PathId}
    (hbi : ∀ c' p', p' ∈ clientRefPaths s c' ↔ c' ∈ pathRefClients s p')
    (hcl : ∀ c', clientRefPaths t c' =
      if c' = c then insertNew p (clientRefPaths s c) else clientRefPaths s c')
    (hpa : ∀ q, pathRefClients t q =
      if q = p then insertNew c (pathRefClients s p) else pathRefClients s q) :
    ∀ c' p', p' ∈ clientRefPaths t c' ↔ c' ∈ pathRefClients t p' := by
  intro c' p'
  rw [hcl c', hpa p']
  by_cases hc : c' = c <;> by_cases hp : p' = p
  · subst hc
    subst hp
    rw [if_pos rfl, if_pos rfl]
    constructor
    · intro _
      exact self_mem_insertNew c' _
    · intro _
      exact self_mem_insertNew p' _
  · subst hc
    rw [if_pos rfl, if_neg hp, mem_insertNew]
    constructor
    · rintro (h | h)
      · exact absurd h hp
      · exact (hbi c' p').mp h
    · intro h
      exact Or.inr ((hbi c' p').mpr h)
  · subst hp
    rw [if_neg hc, if_pos rfl, mem_insertNew]
    constructor
    · intro h
      exact Or.inr ((hbi c' p').mp h)
    · rintro (h | h)
      · exact absurd h hc
      · exact (hbi c' p').mpr h
  · rw [if_neg hc, if_neg hp]
    exact hbi c' p'

theorem fullInv_onPlay {s : ServerState} (inv : FullInv s) (c : ClientId) (p : PathId)
    (sid : SessionId) (u : String) : FullInv (onPlay c p sid u s).1 := by
  refine ⟨nodupState_onPlay inv.nodup c p sid u, ?_, ?_, ?_, ?_⟩
  · exact biRef_register inv.biRef (onPlay_clientRefPaths c p sid u s)
      (onPlay_pathRefClients c p sid u s)
  · intro q pi hq
    rcases lookup_update_cases (onPlay_fst_paths c p sid u s) hq with ⟨hqp, rfl⟩ | ⟨_, hq2⟩
    · subst hqp
      exact regPathInfo_recIff inv.recIff c q
    · exact inv.recIff q pi hq2
  · intro q pi d hq hrec
    rcases lookup_update_cases (onPlay_fst_paths c p sid u s) hq with ⟨hqp, rfl⟩ | ⟨_, hq2⟩
    · subst hqp
      have hrec2 : pathRecordClient s q = some d := by
        rw [← regPathInfo_recordClient s c q]
        exact hrec
      rcases pathRecordClient_some hrec2 with ⟨pi0, hp0, hd⟩
      have hd2 : d ∈ pathRefClients s q := by
        rw [pathRefClients_eq_of hp0]
        exact inv.recMem q pi0 d hp0 hd
      show d ∈ (regPathInfo s c q).refClients
      rw [regPathInfo_refClients]
      exact mem_insertNew.mpr (Or.inr hd2)
    · exact inv.recMem q pi d hq2 hrec
  · intro q pi hq
    rcases lookup_update_cases (onPlay_fst_paths c p sid u s) hq with ⟨hqp, rfl⟩ | ⟨_, hq2⟩
    · subst hqp
      show (regPathInfo s c q).refClients ≠ []
      rw [regPathInfo_refClients]
      exact insertNew_ne_nil c _
    · exact inv.nonemp q pi hq2

theorem fullInv_onRecord {s : ServerState} (inv : FullInv s) (c : ClientId) (p : PathId)
    (sid : SessionId) (u : String) (hsid : sid ≠ "") :
    FullInv (onRecord c p sid u s).1 := by
  refine ⟨nodupState_onRecord inv.nodup c p sid u, ?_, ?_, ?_, ?_⟩
  · exact biRef_register inv.biRef (onRecord_clientRefPaths c p sid u s)
      (onRecord_fst_paths_refClients c p sid u s)
  · intro q pi hq
    rcases onRecord_busy_or_free c p sid u s with ⟨_, hr⟩ | ⟨_, _, hr⟩ <;> rw [hr] at hq
    · rcases lookup_update_cases (registerPath_snd_paths c p s) hq with ⟨hqp, rfl⟩ | ⟨_, hq2⟩
      · subst hqp
        exact regPathInfo_recIff inv.recIff c q
      · exact inv.recIff q pi hq2
    · rcases lookup_update_cases rfl hq with ⟨hqp, rfl⟩ | ⟨_, hq2⟩
      · simp [hsid]
      · exact inv.recIff q pi hq2
  · intro q pi d hq hrec
    rcases onRecord_busy_or_free c p sid u s with ⟨_, hr⟩ | ⟨_, _, hr⟩ <;> rw [hr] at hq
    · rcases lookup_update_cases (registerPath_snd_paths c p s) hq with ⟨hqp, rfl⟩ | ⟨_, hq2⟩
      · subst hqp
        have hrec2 : pathRecordClient s q = some d := by
          rw [← regPathInfo_recordClient s c q]
          exact hrec
        rcases pathRecordClient_some hrec2 with ⟨pi0, hp0, hd⟩
        have hd2 : d ∈ pathRefClients s q := by
          rw [pathRefClients_eq_of hp0]
          exact inv.recMem q pi0 d hp0 hd
        show d ∈ (regPathInfo s c q).refClients
        rw [regPathInfo_refClients]
        exact mem_insertNew.mpr (Or.inr hd2)
      · exact inv.recMem q pi d hq2 hrec
    · rcases lookup_update_cases rfl hq with ⟨hqp, rfl⟩ | ⟨_, hq2⟩
      · subst hqp
        have hd : d = c := by
          have : some c = some d := hrec
          exact (Option.some.inj this).symm
        subst hd
        show d ∈ (regPathInfo s d q).refClients
        rw [regPathInfo_refClients]
        exact self_mem_insertNew d _
      · exact inv.recMem q pi d hq2 hrec
  · intro q pi hq
    rcases onRecord_busy_or_free c p sid u s with ⟨_, hr⟩ | ⟨_, _, hr⟩ <;> rw [hr] at hq
    · rcases lookup_update_cases (registerPath_snd_paths c p s) hq with ⟨hqp, rfl⟩ | ⟨_, hq2⟩
      · subst hqp
        show (regPathInfo s c q).refClients ≠ []
        rw [regPathInfo_refClients]
        exact insertNew_ne_nil c _
      · exact inv.nonemp q pi hq2
    · rcases lookup_update_cases rfl hq with ⟨hqp, rfl⟩ | ⟨_, hq2⟩
      · subst hqp
        show (regPathInfo s c q).refClients ≠ []
        rw [regPathInfo_refClients]
        exact insertNew_ne_nil c _
      · exact inv.nonemp q pi hq2

theorem fullInv_onTeardown {s : ServerState} (inv : FullInv s) (c : ClientId)
    (p : PathId) (sid : SessionId) : FullInv (onTeardown c p sid s).1 := by
  refine ⟨nodupState_onTeardown inv.nodup c p sid, ?_, ?_, ?_, ?_⟩
  · intro c' p'
    rw [clientRefPaths_congr (onTeardown_fst_clients c p sid s) c',
      onTeardown_pathRefClients c p sid s p']
    exact inv.biRef c' p'
  · intro q pi hq
    rcases onTeardown_eq_cases c p sid s with ⟨_, hr⟩ | ⟨pi0, hp0, _, _, hr⟩ |
      ⟨pi0, hp0, _, _, hr⟩ | ⟨pi0, _, _, _, hr⟩ <;> rw [hr] at hq
    · exact inv.recIff q pi hq
    · rcases lookup_update_cases rfl hq with ⟨hqp, rfl⟩ | ⟨_, hq2⟩
      · simp
      · exact inv.recIff q pi hq2
    · rcases lookup_update_cases rfl hq with ⟨hqp, rfl⟩ | ⟨_, hq2⟩
      · subst hqp
        exact inv.recIff q pi0 hp0
      · exact inv.recIff q pi hq2
    · exact inv.recIff q pi hq
  · intro q pi d hq hrec
    rcases onTeardown_eq_cases c p sid s with ⟨_, hr⟩ | ⟨pi0, hp0, _, _, hr⟩ |
      ⟨pi0, hp0, _, _, hr⟩ | ⟨pi0, _, _, _, hr⟩ <;> rw [hr] at hq
    · exact inv.recMem q pi d hq hrec
    · rcases lookup_update_cases rfl hq with ⟨hqp, rfl⟩ | ⟨_, hq2⟩
      · cases hrec
      · exact inv.recMem q pi d hq2 hrec
    · rcases lookup_update_cases rfl hq with ⟨hqp, rfl⟩ | ⟨_, hq2⟩
      · subst hqp
        exact inv.recMem q pi0 d hp0 hrec
      · exact inv.recMem q pi d hq2 hrec
    · exact inv.recMem q pi d hq hrec
  · intro q pi hq
    rcases onTeardown_eq_cases c p sid s with ⟨_, hr⟩ | ⟨pi0, hp0, _, _, hr⟩ |
      ⟨pi0, hp0, _, _, hr⟩ | ⟨pi0, _, _, _, hr⟩ <;> rw [hr] at hq
    · exact inv.nonemp q pi hq
    · rcases lookup_update_cases rfl hq with ⟨hqp, rfl⟩ | ⟨_, hq2⟩
      · subst hqp
        exact inv.nonemp q pi0 hp0
      · exact inv.nonemp q pi hq2
    · rcases lookup_update_cases rfl hq with ⟨hqp, rfl⟩ | ⟨_, hq2⟩
      · subst hqp
        exact inv.nonemp q pi0 hp0
      · exact inv.nonemp q pi hq2
    · exact inv.nonemp q pi hq

theorem biRef_onClientClosed {s : ServerState} (inv : FullInv s) (c : ClientId) :
    ∀ c' q, q ∈ clientRefPaths (onClientClosed c s).1 c' ↔
      c' ∈ pathRefClients (onClientClosed c s).1 q := by
  intro c' q
  have hcl := clientRefPaths_of_update_none (onClientClosed_fst_clients c s) c'
  have hpa := onClientClosed_fst_paths c s (inv.nodup.1 c) q
  rw [hcl]
  by_cases hc : c' = c
  · subst hc
    rw [if_pos rfl]
    constructor
    · intro h
      cases h
    · intro h
      exfalso
      by_cases hq : q ∈ clientRefPaths s c'
      · rw [if_pos hq] at hpa
        rcases closeEffect_cases c' q (s.paths q) with hce | ⟨pi, pi', hpi, hce, h1, _⟩
        · rw [hce] at hpa
          rw [pathRefClients_eq_of_none hpa] at h
          cases h
        · rw [hce] at hpa
          rw [pathRefClients_eq_of hpa, h1] at h
          have hnd : pi.refClients.Nodup := by
            have := inv.nodup.2 q
            rw [pathRefClients_eq_of hpi] at this
            exact this
          exact hnd.not_mem_erase h
      · rw [if_neg hq] at hpa
        have h2 : c' ∈ pathRefClients s q := by
          unfold pathRefClients at h ⊢
          rw [hpa] at h
          exact h
        exact hq ((inv.biRef c' q).mpr h2)
  · rw [if_neg hc]
    by_cases hq : q ∈ clientRefPaths s c
    · rw [if_pos hq] at hpa
      rcases closeEffect_cases c q (s.paths q) with hce | ⟨pi, pi', hpi, hce, h1, _⟩
      · rw [pathRefClients_eq_of_none (hpa.trans hce)]
        constructor
        · intro h
          exfalso
          have h2 := (inv.biRef c' q).mp h
          have h3 := (inv.biRef c q).mp hq
          rcases hsp : s.paths q with _ | pi2
          · rw [pathRefClients_eq_of_none hsp] at h3
            cases h3
          · rw [hsp] at hce
            have herase := closeEffect_none_erase c q pi2 hce
            rcases erase_eq_nil_cases herase with h4 | h4
            · rw [pathRefClients_eq_of hsp, h4] at h3
              cases h3
            · rw [pathRefClients_eq_of hsp, h4] at h2
              exact hc (List.mem_singleton.mp h2)
        · intro h
          cases h
      · rw [hce] at hpa
        rw [pathRefClients_eq_of hpa, h1, List.mem_erase_of_ne hc,
          ← pathRefClients_eq_of hpi]
        exact inv.biRef c' q
    · rw [if_neg hq] at hpa
      have h2 : pathRefClients (onClientClosed c s).1 q = pathRefClients s q := by
        unfold pathRefClients
        rw [hpa]
      rw [h2]
      exact inv.biRef c' q

theorem fullInv_onClientClosed {s : ServerState} (inv : FullInv s) (c : ClientId) :
    FullInv (onClientClosed c s).1 := by
  refine ⟨nodupState_onClientClosed inv.nodup c, biRef_onClientClosed inv c, ?_, ?_, ?_⟩
  · intro q pi hq
    have hpa := onClientClosed_fst_paths c s (inv.nodup.1 c) q
    by_cases hmem : q ∈ clientRefPaths s c
    · rw [if_pos hmem] at hpa
      rw [hpa] at hq
      rcases closeEffect_cases c q (s.paths q) with hce | ⟨pi0, pi', hpi, hce, h1, h2, h3, h4⟩
      · rw [hce] at hq
        cases hq
      · obtain rfl := Option.some.inj (hce.symm.trans hq)
        rcases h4 with ⟨ha, hb⟩ | ⟨ha, hb, _⟩
        · rw [ha, hb]
          simp
        · rw [ha, hb]
          exact inv.recIff q pi0 hpi
    · rw [if_neg hmem] at hpa
      rw [hpa] at hq
      exact inv.recIff q pi hq
  · intro q pi d hq hrec
    have hpa := onClientClosed_fst_paths c s (inv.nodup.1 c) q
    by_cases hmem : q ∈ clientRefPaths s c
    · rw [if_pos hmem] at hpa
      rw [hpa] at hq
      rcases closeEffect_cases c q (s.paths q) with hce | ⟨pi0, pi', hpi, hce, h1, h2, h3, h4⟩
      · rw [hce] at hq
        cases hq
      · obtain rfl := Option.some.inj (hce.symm.trans hq)
        rcases h4 with ⟨ha, _⟩ | ⟨ha, _, hnc⟩
        · rw [ha] at hrec
          cases hrec
        · rw [ha] at hrec
          have hdc : d ≠ c := by
            intro hh
            subst hh
            exact hnc hrec
          rw [h1, List.mem_erase_of_ne hdc]
          exact inv.recMem q pi0 d hpi hrec
    · rw [if_neg hmem] at hpa
      rw [hpa] at hq
      exact inv.recMem q pi d hq hrec
  · intro q pi hq
    have hpa := onClientClosed_fst_paths c s (inv.nodup.1 c) q
    by_cases hmem : q ∈ clientRefPaths s c
    · rw [if_pos hmem] at hpa
      rw [hpa] at hq
      rcases closeEffect_cases c q (s.paths q) with hce | ⟨pi0, pi', hpi, hce, h1, h2, h3, h4⟩
      · rw [hce] at hq
        cases hq
      · obtain rfl := Option.some.inj (hce.symm.trans hq)
        exact h2
    · rw [if_neg hmem] at hpa
      rw [hpa] at hq
      exact inv.nonemp q pi hq

theorem emptyState_fullInv : FullInv emptyState := by
  refine ⟨emptyState_nodup_recConsistent.1, ?_, ?_, ?_, ?_⟩
  · intro c p
    constructor
    · intro h
      cases h
    · intro h
      cases h
  · intro p pi hp
    cases hp
  · intro p pi d hp
    cases hp
  · intro p pi hp
    cases hp

theorem reachableNE_fullInv {s : ServerState} (h : ReachableNE s) : FullInv s := by
  induction h with
  | empty => exact emptyState_fullInv
  | play c p sid u _ ih => exact fullInv_onPlay ih c p sid u
  | record c p sid u _ hsid ih => exact fullInv_onRecord ih c p sid u hsid
  | teardown c p sid _ ih => exact fullInv_onTeardown ih c p sid
  | closed c _ ih => exact fullInv_onClientClosed ih c

/-! ### Play-count bound under admitted plays (claim C7) -/

theorem beforePlay_ok_cases {m : Nat} {p : PathId} {s : ServerState}
    (h : beforePlay m p s = .ok) :
    s.paths p = none ∨ ∃ pi, s.paths p = some pi ∧ ¬(0 < m ∧ m - 1 ≤ pi.playCount) := by
  unfold beforePlay at h
  rcases hp : s.paths p with _ | pi
  · exact Or.inl rfl
  · simp only [hp] at h
    refine Or.inr ⟨pi, rfl, ?_⟩
    intro hcond
    rw [if_pos hcond] at h
    cases h

theorem playBound_onPlay {m : Nat} {s : ServerState} {c : ClientId} {p : PathId}
    {sid : SessionId} {u : String} (hm : 0 < m) (hok : beforePlay m p s = .ok)
    (h : PlayBound m s) : PlayBound m (onPlay c p sid u s).1 := by
  intro q pi hq
  rcases lookup_update_cases (onPlay_fst_paths c p sid u s) hq with ⟨hqp, rfl⟩ | ⟨_, hq2⟩
  · subst hqp
    show (regPathInfo s c q).playCount + 1 ≤ m
    rw [regPathInfo_playCount]
    rcases beforePlay_ok_cases hok with hnone | ⟨pi0, hp0, hcond⟩
    · unfold pathPlayCount
      simp only [hnone]
      omega
    · unfold pathPlayCount
      simp only [hp0]
      omega
  · exact h q pi hq2

theorem regPathInfo_playCount_le {m : Nat} {s : ServerState} (h : PlayBound m s)
    (c : ClientId) (p : PathId) : (regPathInfo s c p).playCount ≤ m := by
  rw [regPathInfo_playCount]
  unfold pathPlayCount
  rcases hp : s.paths p with _ | pi
  · exact Nat.zero_le m
  · exact h p pi hp

theorem playBound_onRecord {m : Nat} {s : ServerState} {c : ClientId} {p : PathId}
    {sid : SessionId} {u : String} (h : PlayBound m s) :
    PlayBound m (onRecord c p sid u s).1 := by
  intro q pi hq
  rcases onRecord_busy_or_free c p sid u s with ⟨_, hr⟩ | ⟨_, _, hr⟩ <;> rw [hr] at hq
  · rcases lookup_update_cases (registerPath_snd_paths c p s) hq with ⟨hqp, rfl⟩ | ⟨_, hq2⟩
    · subst hqp
      exact regPathInfo_playCount_le h c q
    · exact h q pi hq2
  · rcases lookup_update_cases rfl hq with ⟨hqp, rfl⟩ | ⟨_, hq2⟩
    · subst hqp
      exact regPathInfo_playCount_le h c q
    · exact h q pi hq2

theorem playBound_onTeardown {m : Nat} {s : ServerState} {c : ClientId} {p : PathId}
    {sid : SessionId} (h : PlayBound m s) : PlayBound m (onTeardown c p sid s).1 := by
  intro q pi hq
  rcases onTeardown_eq_cases c p sid s with ⟨_, hr⟩ | ⟨pi0, hp0, _, _, hr⟩ |
    ⟨pi0, hp0, _, _, hr⟩ | ⟨pi0, _, _, _, hr⟩ <;> rw [hr] at hq
  · exact h q pi hq
  · rcases lookup_update_cases rfl hq with ⟨hqp, rfl⟩ | ⟨_, hq2⟩
    · subst hqp
      exact h q pi0 hp0
    · exact h q pi hq2
  · rcases lookup_update_cases rfl hq with ⟨hqp, rfl⟩ | ⟨_, hq2⟩
    · subst hqp
      exact Nat.le_trans (Nat.sub_le _ _) (h q pi0 hp0)
    · exact h q pi hq2
  · exact h q pi hq

theorem playBound_onClientClosed {m : Nat} {s : ServerState} {c : ClientId}
    (hnd : NodupState s) (h : PlayBound m s) : PlayBound m (onClientClosed c s).1 := by
  intro q pi hq
  have hpa := onClientClosed_fst_paths c s (hnd.1 c) q
  by_cases hmem : q ∈ clientRefPaths s c
  · rw [if_pos hmem] at hpa
    rw [hpa] at hq
    rcases closeEffect_cases c q (s.paths q) with hce | ⟨pi0, pi', hpi, hce, _, _, h3, _⟩
    · rw [hce] at hq
      cases hq
    · obtain rfl := Option.some.inj (hce.symm.trans hq)
      exact Nat.le_trans h3 (h q pi0 hpi)
  · rw [if_neg hmem] at hpa
    rw [hpa] at hq
    exact h q pi hq

theorem admittedReachable_playBound {m : Nat} {s : ServerState} (hm : 0 < m)
    (h : AdmittedReachable m s) : PlayBound m s := by
  induction h with
  | empty =>
    intro p pi hp
    cases hp
  | play c p sid u hs hok ih => exact playBound_onPlay hm hok ih
  | record c p sid u hs ih => exact playBound_onRecord ih
  | teardown c p sid hs ih => exact playBound_onTeardown ih
  | closed c hs ih =>
    exact playBound_onClientClosed
      (reachable_baseInv (admittedReachable_reachable hs)).1 ih

/-! ### Accessor helpers for the claim theorems -/

theorem pathPlayCount_eq_of {s : ServerState} {p : PathId} {pi : PathInfo}
    (h : s.paths p = some pi) : pathPlayCount s p = pi.playCount := by
  unfold pathPlayCount
  rw [h]

theorem pathRecordClient_of_update {t s : ServerState} {p : PathId} {X : PathInfo}
    (h : t.paths = Function.update s.paths p (some X)) :
    pathRecordClient t p = X.recordClient := by
  unfold pathRecordClient
  rw [h, Function.update_same]
  rfl

theorem pathRecordSid_of_update {t s : ServerState} {p : PathId} {X : PathInfo}
    (h : t.paths = Function.update s.paths p (some X)) :
    pathRecordSid t p = X.recordSessionId := by
  unfold pathRecordSid
  rw [h, Function.update_same]

theorem pathRecordSid_empty_of_none {s : ServerState} {p : PathId}
    (hJ : RecConsistent s) (h : pathRecordClient s p = none) : pathRecordSid s p = "" := by
  unfold pathRecordClient at h
  unfold pathRecordSid
  rcases hp : s.paths p with _ | pi
  · rfl
  · rw [hp] at h
    exact hJ p pi hp h

theorem regPathInfo_busy_iff {s : ServerState} (hJ : RecConsistent s)
    (c : ClientId) (p : PathId) :
    ((regPathInfo s c p).recordClient.isSome = true ∨
      (regPathInfo s c p).recordSessionId ≠ "") ↔
    (pathRecordClient s p).isSome = true := by
  rw [regPathInfo_recordClient, regPathInfo_recordSessionId]
  constructor
  · rintro (h | h)
    · exact h
    · rcases ho : pathRecordClient s p with _ | d
      · exact absurd (pathRecordSid_empty_of_none hJ ho) h
      · rfl
  · intro h
    exact Or.inl h

theorem beforePlay_none {m : Nat} {p : PathId} {s : ServerState}
    (hp : s.paths p = none) : beforePlay m p s = StatusCode.ok := by
  unfold beforePlay
  simp only [hp]

theorem beforePlay_some {m : Nat} {p : PathId} {s : ServerState} {pi : PathInfo}
    (hp : s.paths p = some pi) :
    beforePlay m p s =
      if 0 < m ∧ m - 1 ≤ pi.playCount then StatusCode.forbidden else StatusCode.ok := by
  unfold beforePlay
  simp only [hp]

/-! ### Claim theorems -/

/-- Claim C10: `onClientClosed` on a client with no entry in the clients
map leaves the whole store unchanged and emits nothing. -/
theorem C10_closed_unknown_client {s : ServerState} (c : ClientId)
    (h : s.clients c = none) : onClientClosed c s = (s, []) := by
  unfold onClientClosed
  simp only [h]

/-- Witness for C10 at a concrete input: closing a never-seen client on
the empty store is a no-op with no emissions. -/
theorem C10_witness : onClientClosed 7 emptyState = (emptyState, []) :=
  C10_closed_unknown_client 7 rfl

/-- Claim C2: `onTeardown` behaves exactly as the spec's bullet list
describes (`teardownSpec` is that description verbatim): unknown path is
a silent no-op; a client-and-session match on the recorder clears both
recorder fields, emits `recorderDisconnected` and leaves `playCount`
alone; otherwise a positive `playCount` is decremented — whatever client
or session id issued the teardown — with `lastPlayerDisconnected`
emitted exactly when it reaches zero; and no client's `refPaths` and no
path's `refClients` set is ever touched. -/
theorem C2_teardown_matches_spec (c : ClientId) (p : PathId) (sid : SessionId)
    (s : ServerState) :
    onTeardown c p sid s = teardownSpec c p sid s ∧
    (∀ c', clientRefPaths (onTeardown c p sid s).1 c' = clientRefPaths s c') ∧
    (∀ p', pathRefClients (onTeardown c p sid s).1 p' = pathRefClients s p') := by
  refine ⟨rfl, ?_, ?_⟩
  · intro c'
    exact clientRefPaths_congr (onTeardown_fst_clients c p sid s) c'
  · intro p'
    exact onTeardown_pathRefClients c p sid s p'

/-- Claim C4: `onPlay` registers the client-path reference on both
sides, bumps that path's `playCount` by exactly one, emits
`firstPlayerConnected` exactly once iff the post-increment count is 1,
and changes no other path or client entry. -/
theorem C4_onPlay_behavior (s : ServerState) (c : ClientId) (p : PathId)
    (sid : SessionId) (u : String) :
    p ∈ clientRefPaths (onPlay c p sid u s).1 c ∧
    c ∈ pathRefClients (onPlay c p sid u s).1 p ∧
    pathPlayCount (onPlay c p sid u s).1 p = pathPlayCount s p + 1 ∧
    (onPlay c p sid u s).2 =
      (if pathPlayCount s p + 1 = 1 then [.firstPlayerConnected u p] else []) ∧
    (∀ p', p' ≠ p → (onPlay c p sid u s).1.paths p' = s.paths p') ∧
    (∀ c', c' ≠ c → (onPlay c p sid u s).1.clients c' = s.clients c') := by
  refine ⟨?_, ?_, ?_, onPlay_snd c p sid u s, ?_, ?_⟩
  · rw [onPlay_clientRefPaths c p sid u s c, if_pos rfl]
    exact self_mem_insertNew p _
  · rw [onPlay_pathRefClients c p sid u s p, if_pos rfl]
    exact self_mem_insertNew c _
  · have hp : (onPlay c p sid u s).1.paths p =
        some { regPathInfo s c p with playCount := (regPathInfo s c p).playCount + 1 } := by
      rw [onPlay_fst_paths c p sid u s, Function.update_same]
    rw [pathPlayCount_eq_of hp]
    show (regPathInfo s c p).playCount + 1 = _
    rw [regPathInfo_playCount]
  · intro p' hp'
    rw [onPlay_fst_paths c p sid u s, Function.update_noteq hp']
  · intro c' hc'
    rw [onPlay_fst_clients c p sid u s, Function.update_noteq hc']

/-- Witness for C4 at a concrete input: the first play on a fresh path
of the empty store. -/
theorem C4_witness :
    "/a" ∈ clientRefPaths (onPlay 1 "/a" "s1" "u" emptyState).1 1 ∧
    1 ∈ pathRefClients (onPlay 1 "/a" "s1" "u" emptyState).1 "/a" ∧
    pathPlayCount (onPlay 1 "/a" "s1" "u" emptyState).1 "/a" =
      pathPlayCount emptyState "/a" + 1 ∧
    (onPlay 1 "/a" "s1" "u" emptyState).2 =
      (if pathPlayCount emptyState "/a" + 1 = 1
        then [.firstPlayerConnected "u" "/a"] else []) ∧
    (∀ p', p' ≠ "/a" → (onPlay 1 "/a" "s1" "u" emptyState).1.paths p' =
      emptyState.paths p') ∧
    (∀ c', c' ≠ 1 → (onPlay 1 "/a" "s1" "u" emptyState).1.clients c' =
      emptyState.clients c') :=
  C4_onPlay_behavior emptyState 1 "/a" "s1" "u"

/-- Counterexample to claim C1 as stated: with `maxClientsPerPath = 2`
the second `beforePlay` on the path does not return OK — after a single
admitted play the check already returns 403 Forbidden, because
`playCount = 1 ≥ maxClientsPerPath - 1 = 1`. -/
theorem C1_counterexample :
    beforePlay 2 "/a" emptyState = StatusCode.ok ∧
    beforePlay 2 "/a" (onPlay 1 "/a" "s1" "" emptyState).1 = StatusCode.forbidden := by
  constructor
  · rfl
  · rfl

/-- Claim C1 as amended: the deny rule itself is exactly as the spec
states it (403 iff the limit is positive, a path entry exists, and
`playCount ≥ maxClientsPerPath - 1`; 0 disables the limit), but with
`maxClientsPerPath = 2` already the second `beforePlay` is denied; the
two-OKs-then-403 scenario holds with `maxClientsPerPath = 3`. -/
theorem C1_player_cap_amended :
    (∀ (m : Nat) (p : PathId) (s : ServerState),
      beforePlay m p s = StatusCode.forbidden ↔
        (0 < m ∧ ∃ pi, s.paths p = some pi ∧ m - 1 ≤ pi.playCount)) ∧
    beforePlay 2 "/a" emptyState = StatusCode.ok ∧
    beforePlay 2 "/a" (onPlay 1 "/a" "s1" "" emptyState).1 = StatusCode.forbidden ∧
    beforePlay 3 "/a" emptyState = StatusCode.ok ∧
    beforePlay 3 "/a" (onPlay 1 "/a" "s1" "" emptyState).1 = StatusCode.ok ∧
    beforePlay 3 "/a"
      (onPlay 2 "/a" "s2" "" (onPlay 1 "/a" "s1" "" emptyState).1).1 =
      StatusCode.forbidden := by
  refine ⟨?_, rfl, rfl, rfl, rfl, rfl⟩
  intro m p s
  rcases hp : s.paths p with _ | pi
  · rw [beforePlay_none hp]
    constructor
    · intro h
      cases h
    · rintro ⟨_, pi, hpi, _⟩
      cases hpi
  · rw [beforePlay_some hp]
    by_cases hcond : 0 < m ∧ m - 1 ≤ pi.playCount
    · rw [if_pos hcond]
      exact iff_of_true rfl ⟨hcond.1, pi, rfl, hcond.2⟩
    · rw [if_neg hcond]
      constructor
      · intro h
        cases h
      · rintro ⟨hm, pi', hpi', hle⟩
        obtain rfl := Option.some.inj hpi'
        exact absurd ⟨hm, hle⟩ hcond

/-- Claim C8 is a code bug: running two plays by distinct clients and
then closing both connections abruptly reaches the first assertion site
with `playCount = 2`, so `assert(playCount == 0 || playCount == 1)`
fails.  The first two conjuncts pin down the state at the moment the
second `onClientClosed` runs. -/
theorem C8_assert_violation :
    (runTrace [.play 1 "/a" "s1" "", .play 2 "/a" "s2" "", .clientClosed 1]
        emptyState).1.paths "/a" =
      some { refClients := [2], playCount := 2,
             recordClient := none, recordSessionId := "" } ∧
    closePlayAssertOk 2
      { refClients := [2], playCount := 2,
        recordClient := none, recordSessionId := "" } = false ∧
    traceAssertsOk badTrace emptyState = false := by
  refine ⟨rfl, by decide, by decide⟩

theorem isRecording_none {s : ServerState} {c : ClientId} {p : PathId}
    (hp : s.paths p = none) : isRecording c p s = false := by
  unfold isRecording
  simp only [hp]

theorem isRecording_some {s : ServerState} {c : ClientId} {p : PathId} {pi : PathInfo}
    (hp : s.paths p = some pi) :
    isRecording c p s = (pi.recordClient.isSome || decide (pi.recordSessionId ≠ "")) := by
  unfold isRecording
  simp only [hp]

/-- Claim C5: `onRecord` registers the client-path reference; when the
path's recorder is already set it overwrites nothing and emits nothing;
otherwise it installs the client and session id as the recorder and
emits `recorderConnected` exactly once.  The hypothesis restricts the
store to states the program can reach, where the source's branch test
(`recordClient || !recordSessionId.empty()`) coincides with
"`record_client` is set". -/
theorem C5_onRecord_behavior (s : ServerState) (h : Reachable s) (c : ClientId)
    (p : PathId) (sid : SessionId) (u : String) :
    p ∈ clientRefPaths (onRecord c p sid u s).1 c ∧
    c ∈ pathRefClients (onRecord c p sid u s).1 p ∧
    ((pathRecordClient s p).isSome = true →
      pathRecordClient (onRecord c p sid u s).1 p = pathRecordClient s p ∧
      pathRecordSid (onRecord c p sid u s).1 p = pathRecordSid s p ∧
      (onRecord c p sid u s).2 = []) ∧
    (pathRecordClient s p = none →
      pathRecordClient (onRecord c p sid u s).1 p = some c ∧
      pathRecordSid (onRecord c p sid u s).1 p = sid ∧
      (onRecord c p sid u s).2 = [.recorderConnected u p]) := by
  have hJ := (reachable_baseInv h).2
  refine ⟨?_, ?_, ?_, ?_⟩
  · rw [onRecord_clientRefPaths c p sid u s c, if_pos rfl]
    exact self_mem_insertNew p _
  · rw [onRecord_fst_paths_refClients c p sid u s p, if_pos rfl]
    exact self_mem_insertNew c _
  · intro hsome
    rcases onRecord_busy_or_free c p sid u s with ⟨hb, hr⟩ | ⟨h1, h2, hr⟩
    · rw [hr]
      refine ⟨?_, ?_, rfl⟩
      · rw [pathRecordClient_of_update (registerPath_snd_paths c p s)]
        exact regPathInfo_recordClient s c p
      · rw [pathRecordSid_of_update (registerPath_snd_paths c p s)]
        exact regPathInfo_recordSessionId s c p
    · rw [regPathInfo_recordClient] at h1
      rw [h1] at hsome
      simp at hsome
  · intro hnone
    rcases onRecord_busy_or_free c p sid u s with ⟨hb, hr⟩ | ⟨h1, h2, hr⟩
    · have hbs := (regPathInfo_busy_iff hJ c p).mp hb
      rw [hnone] at hbs
      simp at hbs
    · rw [hr]
      refine ⟨?_, ?_, rfl⟩
      · rw [pathRecordClient_of_update rfl]
      · rw [pathRecordSid_of_update rfl]

/-- Witness for C5 at a concrete input: a record on a fresh path of the
empty store installs the recorder and emits `recorderConnected` once. -/
theorem C5_witness :
    pathRecordClient (onRecord 1 "/a" "s1" "u" emptyState).1 "/a" = some 1 ∧
    pathRecordSid (onRecord 1 "/a" "s1" "u" emptyState).1 "/a" = "s1" ∧
    (onRecord 1 "/a" "s1" "u" emptyState).2 = [.recorderConnected "u" "/a"] :=
  (C5_onRecord_behavior emptyState Reachable.empty 1 "/a" "s1" "u").2.2.2 rfl

/-- Claim C9: on reachable stores, `isRecording` is true exactly when a
path entry exists whose `recordClient` is set, and `beforeRecord`
answers 503 Service Unavailable exactly then, OK otherwise.  Both
functions are embedded as pure functions because the source only reads
the store here: no field is written and no notification is emitted. -/
theorem C9_beforeRecord_iff (s : ServerState) (h : Reachable s) (c : ClientId)
    (p : PathId) (sid : SessionId) :
    (isRecording c p s = true ↔
      ∃ pi, s.paths p = some pi ∧ pi.recordClient.isSome = true) ∧
    (beforeRecord c p sid s = StatusCode.serviceUnavailable ↔
      ∃ pi, s.paths p = some pi ∧ pi.recordClient.isSome = true) ∧
    (beforeRecord c p sid s = StatusCode.ok ↔
      ¬∃ pi, s.paths p = some pi ∧ pi.recordClient.isSome = true) := by
  have hJ := (reachable_baseInv h).2
  have hrec : isRecording c p s = true ↔
      ∃ pi, s.paths p = some pi ∧ pi.recordClient.isSome = true := by
    rcases hp : s.paths p with _ | pi
    · rw [isRecording_none hp]
      constructor
      · intro hh
        cases hh
      · rintro ⟨pi, hpi, _⟩
        cases hpi
    · rw [isRecording_some hp]
      constructor
      · intro hh
        rcases Bool.or_eq_true_iff.mp hh with h1 | h1
        · exact ⟨pi, rfl, h1⟩
        · have hne : pi.recordSessionId ≠ "" := of_decide_eq_true h1
          rcases ho : pi.recordClient with _ | d
          · exact absurd (hJ p pi hp ho) hne
          · refine ⟨pi, rfl, ?_⟩
            rw [ho]
            rfl
      · rintro ⟨pi', hpi', hs⟩
        obtain rfl := Option.some.inj hpi'
        exact Bool.or_eq_true_iff.mpr (Or.inl hs)
  refine ⟨hrec, ?_, ?_⟩
  · unfold beforeRecord
    by_cases hb : isRecording c p s = true
    · rw [if_pos hb]
      exact iff_of_true rfl (hrec.mp hb)
    · rw [if_neg hb]
      constructor
      · intro hh
        cases hh
      · intro hh
        exact absurd (hrec.mpr hh) hb
  · unfold beforeRecord
    by_cases hb : isRecording c p s = true
    · rw [if_pos hb]
      constructor
      · intro hh
        cases hh
      · intro hh
        exact absurd (hrec.mp hb) hh
    · rw [if_neg hb]
      refine iff_of_true rfl ?_
      intro hh
      exact hb (hrec.mpr hh)

/-- Witness for C9 at a concrete input: after a record on the empty
store, a second client's `beforeRecord` on that path answers 503. -/
theorem C9_witness :
    (isRecording 2 "/a" (onRecord 1 "/a" "s1" "" emptyState).1 = true ↔
      ∃ pi, (onRecord 1 "/a" "s1" "" emptyState).1.paths "/a" = some pi ∧
        pi.recordClient.isSome = true) ∧
    (beforeRecord 2 "/a" "x" (onRecord 1 "/a" "s1" "" emptyState).1 =
        StatusCode.serviceUnavailable ↔
      ∃ pi, (onRecord 1 "/a" "s1" "" emptyState).1.paths "/a" = some pi ∧
        pi.recordClient.isSome = true) ∧
    (beforeRecord 2 "/a" "x" (onRecord 1 "/a" "s1" "" emptyState).1 = StatusCode.ok ↔
      ¬∃ pi, (onRecord 1 "/a" "s1" "" emptyState).1.paths "/a" = some pi ∧
        pi.recordClient.isSome = true) :=
  C9_beforeRecord_iff (onRecord 1 "/a" "s1" "" emptyState).1
    (Reachable.step (.record 1 "/a" "s1" "") Reachable.empty) 2 "/a" "x"

/-- Claim C7: when the player limit is positive and every play is
admitted by a `beforePlay` check on the same path returning OK, every
path entry of every reachable store has `playCount ≤ maxClientsPerPath`. -/
theorem C7_playCount_bounded (m : Nat) (hm : 0 < m) {s : ServerState}
    (h : AdmittedReachable m s) :
    ∀ p pi, s.paths p = some pi → pi.playCount ≤ m :=
  admittedReachable_playBound hm h

/-- Witness for C7 at a concrete input: one admitted play with limit 2. -/
theorem C7_witness :
    (0 : Nat) < 2 ∧
    AdmittedReachable 2 (onPlay 1 "/a" "s1" "" emptyState).1 ∧
    (∀ p pi, (onPlay 1 "/a" "s1" "" emptyState).1.paths p = some pi →
      pi.playCount ≤ 2) := by
  have hr : AdmittedReachable 2 (onPlay 1 "/a" "s1" "" emptyState).1 :=
    AdmittedReachable.play 1 "/a" "s1" "" AdmittedReachable.empty rfl
  exact ⟨by decide, hr, C7_playCount_bounded 2 (by decide) hr⟩

/-- Counterexample to claim C3 as stated: `on_record` with an empty
session id — allowed by "any interleaving" over the model's event
alphabet — reaches a store whose path entry has `record_client` set but
`record_session_id` empty, violating invariant (b). -/
theorem C3_counterexample :
    Reachable (onRecord 1 "/a" "" "" emptyState).1 ∧
    ¬(∀ p pi, (onRecord 1 "/a" "" "" emptyState).1.paths p = some pi →
      (pi.recordClient.isSome = true ↔ pi.recordSessionId ≠ "")) := by
  refine ⟨Reachable.step (.record 1 "/a" "" "") Reachable.empty, ?_⟩
  intro hall
  have hx := hall "/a"
    { refClients := [1], playCount := 0, recordClient := some 1, recordSessionId := "" }
    rfl
  simp at hx

/-- Claim C3 as amended: restricted to interleavings whose `on_record`
events carry a non-empty session id (as the RTSP engine's generated ids
always are), every reachable store satisfies (a) bidirectional
client-path reference consistency, (b) `record_client` set iff
`record_session_id` non-empty, with the recorder a member of
`ref_clients`, and (c) a path entry exists iff its `ref_clients` set is
non-empty. -/
theorem C3_invariants_amended {s : ServerState} (h : ReachableNE s) :
    (∀ c p, p ∈ clientRefPaths s c ↔ c ∈ pathRefClients s p) ∧
    (∀ p pi, s.paths p = some pi →
      ((pi.recordClient.isSome = true ↔ pi.recordSessionId ≠ "") ∧
       (∀ d, pi.recordClient = some d → d ∈ pi.refClients))) ∧
    (∀ p, (s.paths p).isSome = true ↔ pathRefClients s p ≠ []) := by
  have inv := reachableNE_fullInv h
  refine ⟨inv.biRef, ?_, ?_⟩
  · intro p pi hp
    exact ⟨inv.recIff p pi hp, fun d hd => inv.recMem p pi d hp hd⟩
  · intro p
    constructor
    · intro hs
      rcases Option.isSome_iff_exists.mp hs with ⟨pi, hp⟩
      rw [pathRefClients_eq_of hp]
      exact inv.nonemp p pi hp
    · intro hne
      rcases hp : s.paths p with _ | pi
      · rw [pathRefClients_eq_of_none hp] at hne
        exact absurd rfl hne
      · rfl

/-- Witness for C3 at a concrete input: the store after one record with
a non-empty session id. -/
theorem C3_witness :
    (∀ c p, p ∈ clientRefPaths (onRecord 1 "/a" "s1" "" emptyState).1 c ↔
      c ∈ pathRefClients (onRecord 1 "/a" "s1" "" emptyState).1 p) ∧
    (∀ p pi, (onRecord 1 "/a" "s1" "" emptyState).1.paths p = some pi →
      ((pi.recordClient.isSome = true ↔ pi.recordSessionId ≠ "") ∧
       (∀ d, pi.recordClient = some d → d ∈ pi.refClients))) ∧
    (∀ p, ((onRecord 1 "/a" "s1" "" emptyState).1.paths p).isSome = true ↔
      pathRefClients (onRecord 1 "/a" "s1" "" emptyState).1 p ≠ []) :=
  C3_invariants_amended
    (ReachableNE.record 1 "/a" "s1" "" ReachableNE.empty (by decide))

/-- Claim C6 is a code bug: `badTrace` returns the store to empty (both
maps are the all-`none` maps again), yet the only emission along it is a
single `firstPlayerConnected` — no `lastPlayerDisconnected` ever fires,
so the balanced-emission law fails on a sequence that starts and ends
with the empty store.  The cause is `onClientClosed` not releasing the
play session of a non-last departing client. -/
theorem C6_emission_imbalance :
    (runTrace badTrace emptyState).2 = [Notification.firstPlayerConnected "" "/a"] ∧
    (∀ c, (runTrace badTrace emptyState).1.clients c = none) ∧
    (∀ p, (runTrace badTrace emptyState).1.paths p = none) := by
  have h4c : badS4.clients = Function.update badS3.clients 2 none :=
    onClientClosed_fst_clients 2 badS3
  have h3c : badS3.clients = Function.update badS2.clients 1 none :=
    onClientClosed_fst_clients 1 badS2
  have h2c : badS2.clients =
      Function.update badS1.clients 2 (some (regClientInfo badS1 2 "/a")) :=
    onPlay_fst_clients 2 "/a" "s2" "" badS1
  have h1c : badS1.clients =
      Function.update emptyState.clients 1 (some (regClientInfo emptyState 1 "/a")) :=
    onPlay_fst_clients 1 "/a" "s1" "" emptyState
  have hr3 : clientRefPaths badS3 2 = ["/a"] := rfl
  have hr2 : clientRefPaths badS2 1 = ["/a"] := rfl
  have h4p := onClientClosed_fst_paths 2 badS3 (by rw [hr3]; decide)
  have h3p := onClientClosed_fst_paths 1 badS2 (by rw [hr2]; decide)
  refine ⟨by decide, ?_, ?_⟩
  · intro c
    rw [show (runTrace badTrace emptyState).1 = badS4 from rfl, h4c]
    by_cases hc2 : c = 2
    · subst hc2
      rw [Function.update_same]
    · rw [Function.update_noteq hc2, h3c]
      by_cases hc1 : c = 1
      · subst hc1
        rw [Function.update_same]
      · rw [Function.update_noteq hc1, h2c, Function.update_noteq hc2, h1c,
          Function.update_noteq hc1]
        rfl
  · intro p
    rw [show (runTrace badTrace emptyState).1 = badS4 from rfl]
    rw [show badS4.paths p = (onClientClosed 2 badS3).1.paths p from rfl, h4p p, hr3]
    by_cases hp : p = "/a"
    · subst hp
      rw [if_pos (by decide)]
      rfl
    · rw [if_neg (by simp [hp])]
      rw [show badS3.paths p = (onClientClosed 1 badS2).1.paths p from rfl, h3p p, hr2]
      rw [if_neg (by simp [hp])]
      rw [show badS2.paths p = (onPlay 2 "/a" "s2" "" badS1).1.paths p from rfl,
        onPlay_fst_paths 2 "/a" "s2" "" badS1, Function.update_noteq hp]
      rw [show badS1.paths p = (onPlay 1 "/a" "s1" "" emptyState).1.paths p from rfl,
        onPlay_fst_paths 1 "/a" "s1" "" emptyState, Function.update_noteq hp]
      rfl

end RestreamServer
